import Mathlib

/-!
Verification of the offer-reader extraction pipeline (`src/app.py`).

The development embeds, as executable Lean functions over `List Char` and a
JSON value type, the parts of `app.py` that the specification's claims are
about: the response parsing with brace-delimited recovery
(`extract_products_from_image`, lines 113-126), the per-product field
normalization (lines 128-161), the table construction with the rendering of
the `condicoes` column (`build_dataframe`, lines 166-205), and the per-image
continue-on-error batch loop in `main` (lines 317-324).

Python library semantics that the code relies on are modelled explicitly:
`json.loads` as a fuel-indexed recursive-descent parser producing the same
value shapes (objects keep insertion order, a repeated key replaces the
earlier value in place), `float(...)` coercion including the `inf`/`nan`
keywords and overflow of large decimals to infinity, `str.replace`,
`str.strip`, `str.find`/`str.rfind`, slicing, truthiness, and the
short-circuiting `or`.
-/

/-- Exception classes that the embedded fragments of `app.py` can raise. -/
inductive PyErr where
  | jsonDecodeError
  | attributeError
  | typeError
  | valueError
  | overflowError
deriving DecidableEq

/-- A Python float: a finite value kept as an exact rational, or one of the
IEEE-754 specials.  Rounding of finite values to 53-bit precision is not
modelled; overflow to infinity is (it decides whether a coercion is finite). -/
inductive PyFloat where
  | finite (q : ℚ)
  | inf
  | ninf
  | nan
deriving DecidableEq

/-- The values `json.loads` can produce (and that then flow through the
normalizer): `null`, booleans, integers, floats, strings, arrays, and objects
as ordered association lists. -/
inductive JVal where
  | jnull
  | jbool (b : Bool)
  | jint (n : ℤ)
  | jfloat (x : PyFloat)
  | jstr (s : String)
  | jarr (elems : List JVal)
  | jobj (fields : List (String × JVal))

mutual

/-- Equality of JSON values is decidable; the nested `List` positions rule out
the derived handler, so the usual mutual recursion over lists is spelled
out. -/
def jvalDecEq : (a b : JVal) → Decidable (a = b)
  | .jnull, .jnull => .isTrue rfl
  | .jbool x, .jbool y =>
    if h : x = y then .isTrue (by rw [h])
    else .isFalse (fun hc => h (by injection hc))
  | .jint x, .jint y =>
    if h : x = y then .isTrue (by rw [h])
    else .isFalse (fun hc => h (by injection hc))
  | .jfloat x, .jfloat y =>
    if h : x = y then .isTrue (by rw [h])
    else .isFalse (fun hc => h (by injection hc))
  | .jstr x, .jstr y =>
    if h : x = y then .isTrue (by rw [h])
    else .isFalse (fun hc => h (by injection hc))
  | .jarr x, .jarr y =>
    match jvalListDecEq x y with
    | .isTrue h => .isTrue (by rw [h])
    | .isFalse h => .isFalse (fun hc => h (by injection hc))
  | .jobj x, .jobj y =>
    match jvalFieldsDecEq x y with
    | .isTrue h => .isTrue (by rw [h])
    | .isFalse h => .isFalse (fun hc => h (by injection hc))
  | .jnull, .jbool _ | .jnull, .jint _ | .jnull, .jfloat _ | .jnull, .jstr _
  | .jnull, .jarr _ | .jnull, .jobj _
  | .jbool _, .jnull | .jbool _, .jint _ | .jbool _, .jfloat _ | .jbool _, .jstr _
  | .jbool _, .jarr _ | .jbool _, .jobj _
  | .jint _, .jnull | .jint _, .jbool _ | .jint _, .jfloat _ | .jint _, .jstr _
  | .jint _, .jarr _ | .jint _, .jobj _
  | .jfloat _, .jnull | .jfloat _, .jbool _ | .jfloat _, .jint _ | .jfloat _, .jstr _
  | .jfloat _, .jarr _ | .jfloat _, .jobj _
  | .jstr _, .jnull | .jstr _, .jbool _ | .jstr _, .jint _ | .jstr _, .jfloat _
  | .jstr _, .jarr _ | .jstr _, .jobj _
  | .jarr _, .jnull | .jarr _, .jbool _ | .jarr _, .jint _ | .jarr _, .jfloat _
  | .jarr _, .jstr _ | .jarr _, .jobj _
  | .jobj _, .jnull | .jobj _, .jbool _ | .jobj _, .jint _ | .jobj _, .jfloat _
  | .jobj _, .jstr _ | .jobj _, .jarr _ => .isFalse (fun hc => nomatch hc)

/-- Decidable equality of lists of JSON values. -/
def jvalListDecEq : (xs ys : List JVal) → Decidable (xs = ys)
  | [], [] => .isTrue rfl
  | x :: xs, y :: ys =>
    match jvalDecEq x y, jvalListDecEq xs ys with
    | .isTrue h1, .isTrue h2 => .isTrue (by rw [h1, h2])
    | .isFalse h1, _ => .isFalse (fun hc => h1 (by injection hc))
    | _, .isFalse h2 => .isFalse (fun hc => h2 (by injection hc))
  | [], _ :: _ => .isFalse (fun hc => nomatch hc)
  | _ :: _, [] => .isFalse (fun hc => nomatch hc)

/-- Decidable equality of JSON association lists. -/
def jvalFieldsDecEq : (xs ys : List (String × JVal)) → Decidable (xs = ys)
  | [], [] => .isTrue rfl
  | (k1, v1) :: xs, (k2, v2) :: ys =>
    match String.decEq k1 k2, jvalDecEq v1 v2, jvalFieldsDecEq xs ys with
    | .isTrue h0, .isTrue h1, .isTrue h2 => .isTrue (by rw [h0, h1, h2])
    | .isFalse h0, _, _ =>
      .isFalse (fun hc => h0 (by injection hc with e1 e2; exact congrArg Prod.fst e1))
    | _, .isFalse h1, _ =>
      .isFalse (fun hc => h1 (by injection hc with e1 e2; exact congrArg Prod.snd e1))
    | _, _, .isFalse h2 =>
      .isFalse (fun hc => h2 (by injection hc))
  | [], _ :: _ => .isFalse (fun hc => nomatch hc)
  | _ :: _, [] => .isFalse (fun hc => nomatch hc)

end

instance : DecidableEq JVal := jvalDecEq

instance {ε α : Type} [DecidableEq ε] [DecidableEq α] : DecidableEq (Except ε α) := fun a b =>
  match a, b with
  | .ok x, .ok y =>
    if h : x = y then .isTrue (by rw [h]) else .isFalse (fun hc => h (by injection hc))
  | .error x, .error y =>
    if h : x = y then .isTrue (by rw [h]) else .isFalse (fun hc => h (by injection hc))
  | .ok _, .error _ => .isFalse (fun hc => Except.noConfusion hc)
  | .error _, .ok _ => .isFalse (fun hc => Except.noConfusion hc)

/-- Python truthiness of a value (`bool(v)`): `None`, `False`, zero, and the
empty string/list/dict are falsy, everything else (including `inf` and `nan`)
is truthy. -/
def truthy : JVal → Bool
  | .jnull => false
  | .jbool b => b
  | .jint n => if n = 0 then false else true
  | .jfloat x =>
    match x with
    | .finite q => if q = 0 then false else true
    | _ => true
  | .jstr s => if s = "" then false else true
  | .jarr xs => !xs.isEmpty
  | .jobj fs => !fs.isEmpty

/-- Python's short-circuiting `a or b`: `a` if truthy, else `b`. -/
def pyOr (a b : JVal) : JVal := if truthy a then a else b

/-- First binding of a key in an ordered association list. -/
def lookupField : List (String × JVal) → String → Option JVal
  | [], _ => none
  | (k0, v) :: rest, k => if k0 = k then some v else lookupField rest k

/-- `d.get(k)` on a Python dict: the bound value, or `None` when absent. -/
def dictGet (fields : List (String × JVal)) (k : String) : JVal :=
  match lookupField fields k with
  | some v => v
  | none => .jnull

/-- Characters Python's `str.strip()` removes by default (ASCII range). -/
def isPyWs (c : Char) : Bool :=
  c = ' ' || c = '\t' || c = '\n' || c = '\r' || c = '\x0b' || c = '\x0c'

/-- `str.strip()`: drop leading and trailing whitespace. -/
def pyStripChars (cs : List Char) : List Char :=
  ((cs.dropWhile isPyWs).reverse.dropWhile isPyWs).reverse

/-- ASCII decimal digit test. -/
def isDigitC (c : Char) : Bool := '0' ≤ c && c ≤ '9'

/-- Numeric value of a decimal digit character. -/
def digitVal (c : Char) : Nat := c.toNat - 48

/-- Value of a big-endian list of decimal digit characters. -/
def natOfDigits (ds : List Char) : Nat :=
  ds.foldl (fun a c => a * 10 + digitVal c) 0

/-- Powers of ten as rationals, computed on `ℕ` so that evaluation stays in
kernel-accelerated literal arithmetic. -/
def pow10 (k : Nat) : ℚ := ((10 ^ k : ℕ) : ℚ)

/-- Integer powers of ten. -/
def zpow10 : Int → ℚ
  | .ofNat k => pow10 k
  | .negSucc k => 1 / pow10 (k + 1)

/-- The smallest positive rational that the decimal-to-double conversions in
CPython turn into `inf` (the midpoint above the largest finite double, which
rounds to even, i.e. to infinity): `2 ^ 1024 - 2 ^ 970`, written as
`2 ^ 970 * (2 ^ 54 - 1)` with small exponents so that evaluation stays in
literal arithmetic. -/
def doubleOverflow : ℚ := (((2 ^ 97) ^ 10 * (2 ^ 54 - 1) : ℕ) : ℚ)

/-- Clamp an exact decimal value to a Python float: magnitudes at or above
`doubleOverflow` become the corresponding infinity. -/
def clampDouble (q : ℚ) : PyFloat :=
  if doubleOverflow ≤ q then .inf
  else if q ≤ -doubleOverflow then .ninf
  else .finite q

/-- Exponent tail of a numeric literal: optional sign, then one or more
digits; returns the exponent and the unconsumed input. -/
def parseExpTail (cs : List Char) : Option (Int × List Char) :=
  let sr : Bool × List Char :=
    match cs with
    | '+' :: r => (false, r)
    | '-' :: r => (true, r)
    | _ => (false, cs)
  let ds := sr.2.takeWhile isDigitC
  if ds.isEmpty then none
  else
    let e : Int := (natOfDigits ds : Int)
    some (if sr.1 then -e else e, sr.2.dropWhile isDigitC)

/-- Exact value of a decimal literal: sign, integer digits, fraction digits,
decimal exponent. -/
def decimalVal (neg : Bool) (ds fs : List Char) (e : Int) : ℚ :=
  let m : ℚ := (natOfDigits ds : ℚ) + (natOfDigits fs : ℚ) / pow10 fs.length
  let q := m * zpow10 e
  if neg then -q else q

/-- `float(s)` on a Python string: strip whitespace, allow an optional sign,
accept the case-insensitive `inf`/`infinity`/`nan` keywords, else parse a
decimal literal (digits around an optional point, optional exponent) whose
value overflows to infinity past the double range.  Digit-group underscores
are not modelled. -/
def pyFloatOfString (s : String) : Except PyErr PyFloat :=
  let cs0 := pyStripChars s.data
  let sr : Bool × List Char :=
    match cs0 with
    | '+' :: r => (false, r)
    | '-' :: r => (true, r)
    | _ => (false, cs0)
  let neg := sr.1
  let cs1 := sr.2
  let low := cs1.map Char.toLower
  if low = ['i', 'n', 'f'] ∨ low = ['i', 'n', 'f', 'i', 'n', 'i', 't', 'y'] then
    .ok (if neg then .ninf else .inf)
  else if low = ['n', 'a', 'n'] then .ok .nan
  else
    let ds := cs1.takeWhile isDigitC
    let r1 := cs1.dropWhile isDigitC
    let fr : List Char × List Char :=
      match r1 with
      | '.' :: r2 => (r2.takeWhile isDigitC, r2.dropWhile isDigitC)
      | _ => ([], r1)
    let fs := fr.1
    let r3 := fr.2
    if ds.isEmpty ∧ fs.isEmpty then .error .valueError
    else
      match r3 with
      | [] => .ok (clampDouble (decimalVal neg ds fs 0))
      | 'e' :: r4 =>
        match parseExpTail r4 with
        | some p => if p.2.isEmpty then .ok (clampDouble (decimalVal neg ds fs p.1)) else .error .valueError
        | none => .error .valueError
      | 'E' :: r4 =>
        match parseExpTail r4 with
        | some p => if p.2.isEmpty then .ok (clampDouble (decimalVal neg ds fs p.1)) else .error .valueError
        | none => .error .valueError
      | _ => .error .valueError

/-- Decimal digits of a natural number. -/
def natDigitsStr (n : Nat) : String := String.mk (Nat.toDigits 10 n)

/-- Decimal rendering of an integer. -/
def intStr (n : ℤ) : String :=
  if n < 0 then "-" ++ natDigitsStr n.natAbs else natDigitsStr n.natAbs

/-- Smallest number of decimal fraction digits (up to the given fuel) that
writes the rational exactly, when one exists. -/
def decScale : Nat → ℚ → Option Nat
  | 0, q => if q.den = 1 then some 0 else none
  | fuel + 1, q => if q.den = 1 then some 0 else (decScale fuel (q * 10)).map (· + 1)

/-- Fixed-point decimal rendering of a nonnegative rational with `k` fraction
digits. -/
def fixedDecimal (q : ℚ) (k : Nat) : String :=
  let scaled := (q * pow10 k).num.natAbs
  let ds := Nat.toDigits 10 scaled
  let ds2 := List.replicate (k + 1 - ds.length) '0' ++ ds
  let ip := ds2.take (ds2.length - k)
  let fp := ds2.drop (ds2.length - k)
  String.mk ip ++ "." ++ String.mk fp

/-- `str(x)` on a Python float.  Finite values are written in plain fixed-point
decimal with the fewest fraction digits (scientific notation for very large or
small magnitudes is not modelled; a non-decimal rational, which no embedded
coercion produces, falls back to a fraction spelling). -/
def floatRepr : PyFloat → String
  | .inf => "inf"
  | .ninf => "-inf"
  | .nan => "nan"
  | .finite q =>
    let sign := if q < 0 then "-" else ""
    let a : ℚ := if q < 0 then -q else q
    match decScale 400 a with
    | some 0 => sign ++ natDigitsStr a.num.natAbs ++ ".0"
    | some k => sign ++ fixedDecimal a k
    | none => sign ++ natDigitsStr a.num.natAbs ++ "/" ++ natDigitsStr a.den

/-- `str(v)` on the values the pipeline can hand to `str`.  Containers are
modelled only up to the property the code consumes: their rendering contains a
bracket, so it can never coerce to a float. -/
def pyStr : JVal → String
  | .jnull => "None"
  | .jbool true => "True"
  | .jbool false => "False"
  | .jint n => intStr n
  | .jfloat x => floatRepr x
  | .jstr s => s
  | .jarr _ => "[...]"
  | .jobj _ => "\x7b...\x7d"

/-- `float(v)` on an arbitrary value: numbers pass through (large integers
overflow with an error, unlike strings), booleans coerce to 0/1, strings are
parsed, everything else raises a type error. -/
def pyFloat : JVal → Except PyErr PyFloat
  | .jnull => .error .typeError
  | .jbool b => .ok (.finite (if b then 1 else 0))
  | .jint n => if doubleOverflow ≤ ((n.natAbs : ℚ)) then .error .overflowError else .ok (.finite (n : ℚ))
  | .jfloat x => .ok x
  | .jstr s => pyFloatOfString s
  | .jarr _ => .error .typeError
  | .jobj _ => .error .typeError

/-- `s.replace(pat, rep)`: replace every non-overlapping occurrence of `pat`,
scanning left to right.  The fuel, one unit per step, starts at the length of
the string, which suffices because every step consumes at least one
character. -/
def replaceAllGo (pat rep : List Char) : Nat → List Char → List Char
  | _, [] => []
  | 0, cs => cs
  | fuel + 1, c :: cs =>
    if 0 < pat.length ∧ pat.isPrefixOf (c :: cs) then
      rep ++ replaceAllGo pat rep fuel ((c :: cs).drop pat.length)
    else
      c :: replaceAllGo pat rep fuel cs

/-- `s.replace(pat, rep)` on strings. -/
def pyReplace (s pat rep : String) : String :=
  String.mk (replaceAllGo pat.data rep.data s.data.length s.data)

/-- Hex digit value, for string escapes. -/
def hexVal (c : Char) : Option Nat :=
  if '0' ≤ c ∧ c ≤ '9' then some (c.toNat - 48)
  else if 'a' ≤ c ∧ c ≤ 'f' then some (c.toNat - 87)
  else if 'A' ≤ c ∧ c ≤ 'F' then some (c.toNat - 55)
  else none

/-- JSON whitespace (the characters `json.loads` skips between tokens). -/
def isJsonWs (c : Char) : Bool :=
  c = ' ' || c = '\t' || c = '\n' || c = '\r'

/-- Skip JSON whitespace. -/
def skipWs (cs : List Char) : List Char := cs.dropWhile isJsonWs

/-- Body of a JSON string after the opening quote: ordinary characters up to
the closing quote, with the standard escapes; unescaped control characters are
rejected as CPython's strict mode does. -/
def parseStrGo (acc : List Char) : List Char → Option (String × List Char)
  | [] => none
  | c :: rest =>
    if c = '"' then some (String.mk acc.reverse, rest)
    else if c = '\\' then
      match rest with
      | [] => none
      | e :: rest2 =>
        if e = '"' then parseStrGo ('"' :: acc) rest2
        else if e = '\\' then parseStrGo ('\\' :: acc) rest2
        else if e = '/' then parseStrGo ('/' :: acc) rest2
        else if e = 'b' then parseStrGo ('\x08' :: acc) rest2
        else if e = 'f' then parseStrGo ('\x0c' :: acc) rest2
        else if e = 'n' then parseStrGo ('\n' :: acc) rest2
        else if e = 'r' then parseStrGo ('\r' :: acc) rest2
        else if e = 't' then parseStrGo ('\t' :: acc) rest2
        else if e = 'u' then
          match rest2 with
          | h1 :: h2 :: h3 :: h4 :: rest3 =>
            match hexVal h1, hexVal h2, hexVal h3, hexVal h4 with
            | some a, some b, some c2, some d =>
              parseStrGo (Char.ofNat (((a * 16 + b) * 16 + c2) * 16 + d) :: acc) rest3
            | _, _, _, _ => none
          | _ => none
        else none
    else if c.toNat < 32 then none
    else parseStrGo (c :: acc) rest

/-- A JSON number token: optional minus, integer part without leading zeros,
optional fraction, optional exponent.  Without fraction and exponent the value
is a Python `int` (arbitrary precision); otherwise it is a `float`, so a huge
literal overflows to infinity as `float` conversion does. -/
def parseNum (cs : List Char) : Option (JVal × List Char) :=
  let sr : Bool × List Char :=
    match cs with
    | '-' :: r => (true, r)
    | _ => (false, cs)
  let neg := sr.1
  let cs1 := sr.2
  let ds := cs1.takeWhile isDigitC
  let r1 := cs1.dropWhile isDigitC
  if ds.isEmpty then none
  else if 1 < ds.length ∧ ds.head? = some '0' then none
  else
    match r1 with
    | '.' :: r2 =>
      let fs := r2.takeWhile isDigitC
      let r3 := r2.dropWhile isDigitC
      if fs.isEmpty then none
      else
        match r3 with
        | 'e' :: r4 =>
          (parseExpTail r4).map fun p => (.jfloat (clampDouble (decimalVal neg ds fs p.1)), p.2)
        | 'E' :: r4 =>
          (parseExpTail r4).map fun p => (.jfloat (clampDouble (decimalVal neg ds fs p.1)), p.2)
        | _ => some (.jfloat (clampDouble (decimalVal neg ds fs 0)), r3)
    | 'e' :: r4 =>
      (parseExpTail r4).map fun p => (.jfloat (clampDouble (decimalVal neg ds [] p.1)), p.2)
    | 'E' :: r4 =>
      (parseExpTail r4).map fun p => (.jfloat (clampDouble (decimalVal neg ds [] p.1)), p.2)
    | _ => some (.jint (if neg then -(natOfDigits ds : Int) else (natOfDigits ds : Int)), r1)

/-- Bind a key in an object under construction the way a Python dict does:
a repeated key keeps its position and takes the new value, a new key is
appended. -/
def insertField : List (String × JVal) → String → JVal → List (String × JVal)
  | [], k, v => [(k, v)]
  | (k0, v0) :: rest, k, v =>
    if k0 = k then (k0, v) :: rest else (k0, v0) :: insertField rest k v

mutual

/-- One JSON value at the head of the input (whitespace already skipped),
with the unconsumed remainder.  `NaN`, `Infinity` and `-Infinity` are accepted
as `json.loads` does by default. -/
def parseVal : Nat → List Char → Option (JVal × List Char)
  | 0, _ => none
  | fuel + 1, cs =>
    match cs with
    | '{' :: rest => parseObjBody fuel (skipWs rest) []
    | '[' :: rest => parseArrBody fuel (skipWs rest) []
    | '"' :: rest => (parseStrGo [] rest).map fun p => (.jstr p.1, p.2)
    | 't' :: rest =>
      if ['r', 'u', 'e'].isPrefixOf rest then some (.jbool true, rest.drop 3) else none
    | 'f' :: rest =>
      if ['a', 'l', 's', 'e'].isPrefixOf rest then some (.jbool false, rest.drop 4) else none
    | 'n' :: rest =>
      if ['u', 'l', 'l'].isPrefixOf rest then some (.jnull, rest.drop 3) else none
    | 'N' :: rest =>
      if ['a', 'N'].isPrefixOf rest then some (.jfloat .nan, rest.drop 2) else none
    | 'I' :: rest =>
      if ['n', 'f', 'i', 'n', 'i', 't', 'y'].isPrefixOf rest then
        some (.jfloat .inf, rest.drop 7)
      else none
    | '-' :: 'I' :: rest =>
      if ['n', 'f', 'i', 'n', 'i', 't', 'y'].isPrefixOf rest then
        some (.jfloat .ninf, rest.drop 7)
      else none
    | _ => parseNum cs

/-- Members of an object after `{` (whitespace skipped): either the closing
brace of an empty object, or `"key": value` members separated by commas, with
no trailing comma. -/
def parseObjBody : Nat → List Char → List (String × JVal) → Option (JVal × List Char)
  | 0, _, _ => none
  | fuel + 1, cs, acc =>
    match cs with
    | '}' :: rest => if acc.isEmpty then some (.jobj acc, rest) else none
    | '"' :: rest =>
      match parseStrGo [] rest with
      | some (key, r1) =>
        match skipWs r1 with
        | ':' :: r2 =>
          match parseVal fuel (skipWs r2) with
          | some (v, r3) =>
            let acc2 := insertField acc key v
            match skipWs r3 with
            | ',' :: r4 => parseObjBody fuel (skipWs r4) acc2
            | '}' :: r4 => some (.jobj acc2, r4)
            | _ => none
          | none => none
        | _ => none
      | none => none
    | _ => none

/-- Elements of an array after `[` (whitespace skipped). -/
def parseArrBody : Nat → List Char → List JVal → Option (JVal × List Char)
  | 0, _, _ => none
  | fuel + 1, cs, acc =>
    match cs with
    | ']' :: rest => if acc.isEmpty then some (.jarr acc.reverse, rest) else none
    | _ =>
      match parseVal fuel cs with
      | some (v, r1) =>
        match skipWs r1 with
        | ',' :: r2 => parseArrBody fuel (skipWs r2) (v :: acc)
        | ']' :: r2 => some (.jarr (v :: acc).reverse, r2)
        | _ => none
      | none => none

end

/-- `json.loads` on a character list: parse one value surrounded by optional
whitespace; anything else is a decode error (`none`). -/
def json_loads (cs : List Char) : Option JVal :=
  match parseVal (cs.length + 1) (skipWs cs) with
  | some (v, rest) => if (skipWs rest).isEmpty then some v else none
  | none => none

/-- `str.find(c)`: index of the first occurrence, `none` standing for
Python's `-1`. -/
def findCharIdx (c : Char) : List Char → Option Nat
  | [] => none
  | a :: t => if a = c then some 0 else (findCharIdx c t).map (· + 1)

/-- `str.rfind(c)`: index of the last occurrence, `none` standing for `-1`. -/
def rfindCharIdx (c : Char) (cs : List Char) : Option Nat :=
  match findCharIdx c cs.reverse with
  | some i => some (cs.length - 1 - i)
  | none => none

/-- The slice `cs[a:b]` for nonnegative bounds (an inverted or overlong range
is clamped to empty, as in Python). -/
def pySlice (cs : List Char) (a b : Nat) : List Char :=
  (cs.drop a).take (b - a)

/-- Lines 113-124 of `app.py`: strict `json.loads` of the model reply; on
failure, strip the text, look for the first `{` and the last `}`, and parse
the inclusive slice between them — a second failure there (uncaught in the
source) raises a JSON decode error — and when either brace is missing fall
back to an object with an empty `products` list. -/
def parse_payload (content : List Char) : Except PyErr JVal :=
  match json_loads content with
  | some v => .ok v
  | none =>
    match findCharIdx '{' (pyStripChars content), rfindCharIdx '}' (pyStripChars content) with
    | some a, some b =>
      match json_loads (pySlice (pyStripChars content) a (b + 1)) with
      | some v => .ok v
      | none => .error .jsonDecodeError
    | _, _ => .ok (.jobj [("products", .jarr [])])

/-- Line 126 of `app.py`: `payload.get("products", []) or []`; calling `.get`
on a non-dict payload raises an attribute error. -/
def get_products_value (payload : JVal) : Except PyErr JVal :=
  match payload with
  | .jobj fields =>
    .ok (pyOr (match lookupField fields "products" with
               | some v => v
               | none => .jarr []) (.jarr []))
  | _ => .error .attributeError

/-- `for p in v`: lists yield their elements, dicts their keys, strings their
characters; other values are not iterable. -/
def iter_elems (v : JVal) : Except PyErr (List JVal) :=
  match v with
  | .jarr xs => .ok xs
  | .jobj fields => .ok (fields.map fun kv => JVal.jstr kv.1)
  | .jstr s => .ok (s.data.map fun c => JVal.jstr (String.mk [c]))
  | _ => .error .typeError

/-- The normalized per-product record built at lines 152-161 of `app.py`
(the `source_file` tag is attached later, by the caller). -/
structure Product where
  marca_nome : JVal
  marca : JVal
  produto : JVal
  preco_brl : Option PyFloat
  preco_brl_texto : JVal
  condicoes : List JVal
deriving DecidableEq

/-- Line 139-140 of `app.py`: the string the salvage branch feeds to `float`:
`str(preco_brl_val or preco_brl_texto or "")` with `R$` and spaces removed,
grouping dots dropped, and the decimal comma replaced by a dot. -/
def fallback_price_str (preco_brl_val preco_brl_texto : JVal) : String :=
  pyReplace (pyReplace (pyReplace (pyReplace
    (pyStr (pyOr preco_brl_val (pyOr preco_brl_texto (.jstr "")))) "R$" "") " " "") "." "") "," "."

/-- Lines 133-144 of `app.py`: `None` price stays `None`; otherwise try
`float` directly; on any exception try `float` of the cleaned-up text; on a
second exception the price becomes `None`. -/
def normalize_price (preco_brl_val preco_brl_texto : JVal) : Option PyFloat :=
  if preco_brl_val = .jnull then none
  else
    match pyFloat preco_brl_val with
    | .ok x => some x
    | .error _ =>
      match pyFloatOfString (fallback_price_str preco_brl_val preco_brl_texto) with
      | .ok x => some x
      | .error _ => none

/-- Lines 146-150 of `app.py`: `p.get("condicoes") or []`, a dict wrapped
into a singleton list, and any non-list replaced by the empty list. -/
def normalize_condicoes (raw : JVal) : List JVal :=
  let c0 := pyOr raw (.jarr [])
  let c1 : JVal :=
    match c0 with
    | .jobj fs => .jarr [.jobj fs]
    | x => x
  match c1 with
  | .jarr xs => xs
  | _ => []

/-- Lines 128-161 of `app.py`: one loop iteration of the field normalizer.
`p.get` on a non-dict product raises an attribute error. -/
def normalize_product (p : JVal) : Except PyErr Product :=
  match p with
  | .jobj fields =>
    let marca_nome := pyOr (dictGet fields "marca_nome")
      (pyOr (dictGet fields "marca+nome") (pyOr (dictGet fields "nome") (.jstr "")))
    let marca := pyOr (dictGet fields "marca") (.jstr "")
    let produto := pyOr (dictGet fields "produto") (.jstr "")
    let preco_brl_texto := pyOr (dictGet fields "preco_brl_texto")
      (pyOr (dictGet fields "preco_texto") (.jstr ""))
    let preco_brl := normalize_price (dictGet fields "preco_brl") preco_brl_texto
    let condicoes := normalize_condicoes (dictGet fields "condicoes")
    .ok ⟨marca_nome, marca, produto, preco_brl, preco_brl_texto, condicoes⟩
  | _ => .error .attributeError

/-- Lines 113-163 of `app.py` after the model call: parse the raw reply text,
read the `products` entry, and normalize each product record. -/
def extract_products_from_image (content : List Char) : Except PyErr (List Product) := do
  let payload ← parse_payload content
  let products ← get_products_value payload
  let items ← iter_elems products
  items.mapM normalize_product

/-- Lines 171-177 of `app.py`: one condition's cell text, `none` when the
element is not a dict and is skipped by the comprehension's filter. -/
def render_condition (c : JVal) : Option String :=
  match c with
  | .jobj fields =>
    some (pyStr (pyOr (dictGet fields "tipo") (.jstr "outro")) ++ ": " ++
      pyStr (pyOr (dictGet fields "valor") (.jstr "")))
  | _ => none

/-- Lines 170-177 of `app.py`: the `condicoes` column text — dict elements
rendered and joined by `"; "`, everything else dropped. -/
def render_condicoes (cs : List JVal) : String :=
  String.intercalate "; " (cs.filterMap render_condition)

/-- One row of the result table built at lines 181-191 of `app.py`. -/
structure ResultRow where
  arquivo : String
  marca_nome : JVal
  marca : JVal
  produto : JVal
  preco_brl : Option PyFloat
  preco_brl_texto : JVal
  condicoes : String
deriving DecidableEq

/-- Lines 166-205 of `app.py`: flatten the `(filename, product)` pairs into
table rows (for records coming from the normalizer, `condicoes` is always a
list, so the comprehension branch applies). -/
def build_dataframe (rows : List (String × Product)) : List ResultRow :=
  rows.map fun fp =>
    { arquivo := fp.1
      marca_nome := fp.2.marca_nome
      marca := fp.2.marca
      produto := fp.2.produto
      preco_brl := fp.2.preco_brl
      preco_brl_texto := fp.2.preco_brl_texto
      condicoes := render_condicoes fp.2.condicoes }

/-- Lines 317-324 of `app.py`: the batch loop of `main`, with each image's
model call and parse represented by its outcome.  A successful image appends
its `(filename, product)` pairs; an exception is reported and the loop
continues. -/
def main_batch_loop (results : List (String × Except PyErr (List Product))) :
    List (String × Product) :=
  results.foldl
    (fun acc item =>
      match item.2 with
      | .ok ps => acc ++ ps.map fun p => (item.1, p)
      | .error _ => acc)
    []

/-- The price fallback as §4.4 of the specification words it: take the price
field or the textual-price field (first truthy, else empty), strip the
currency marker and whitespace, remove grouping-dot separators, replace a
decimal comma with a decimal point, then coerce to a number; the price is
absent when that coercion fails. -/
def price_fallback_spec (price_field textual_price : JVal) : Option PyFloat :=
  match pyFloatOfString (pyReplace (pyReplace (pyReplace (pyReplace
      (pyStr (pyOr price_field (pyOr textual_price (.jstr "")))) "R$" "") " " "") "." "") "," ".") with
  | .ok x => some x
  | .error _ => none

/-- The shape the normalizer actually gives the `conditions` field: a truthy
(non-empty) mapping is wrapped into a singleton sequence, a sequence is kept
as-is, and every other value — the empty mapping included, since `or` treats
it as falsy — becomes the empty sequence. -/
def conditions_shape_spec : JVal → List JVal
  | .jobj [] => []
  | .jobj fs => [.jobj fs]
  | .jarr xs => xs
  | _ => []

/-- Is the value a JSON mapping? -/
def isJObj : JVal → Bool
  | .jobj _ => true
  | _ => false

/-- Is the float finite? -/
def isFiniteFloat : PyFloat → Bool
  | .finite _ => true
  | _ => false

/-- Is the looked-up value absent or a string?  The data model of §3 types a
condition as a `(kind, value)` pair of strings, `kind` possibly missing. -/
def isStrOpt : Option JVal → Bool
  | none => true
  | some (.jstr _) => true
  | some _ => false

/-- A condition element shaped as §3 describes them: a mapping whose `tipo`
and `valor` entries, when present, are strings. -/
def wellTypedCondition (c : JVal) : Bool :=
  match c with
  | .jobj fields => isStrOpt (lookupField fields "tipo") && isStrOpt (lookupField fields "valor")
  | _ => false

/-- One condition's cell text as the claim words it: `"<kind>: <value>"`, the
kind replaced by the default marker (the source's `"outro"`) when it is
missing or empty, the value empty when missing. -/
def condition_cell_spec : JVal → String
  | .jobj fields =>
    (match lookupField fields "tipo" with
     | some (.jstr t) => if t = "" then "outro" else t
     | _ => "outro") ++ ": " ++
    (match lookupField fields "valor" with
     | some (.jstr s) => s
     | _ => "")
  | _ => ""

/-- A sample normalized record used to instantiate the universal statements
about the field normalizer. -/
def exampleProduct199 : Product :=
  ⟨.jstr "", .jstr "", .jstr "", some (.finite (199 / 10)), .jstr "", []⟩

attribute [local semireducible] Rat.add Rat.mul Rat.inv

set_option maxRecDepth 10000

set_option maxHeartbeats 1000000

/-- On `Except`, binding a success just applies the continuation. -/
theorem except_bind_ok {e a b : Type} (x : a) (f : a -> Except e b) :
    (Except.ok x : Except e a) >>= f = f x := rfl

/-- On `Except`, `pure` is `ok`. -/
theorem except_pure {e a : Type} (x : a) : (pure x : Except e a) = Except.ok x := rfl

/-- The `condicoes` shaping of lines 146-150 agrees with `conditions_shape_spec`
on every value: the `or []` step first sends every falsy value — the empty
mapping included — to the empty list, so only a non-empty mapping is wrapped. -/
theorem normalize_condicoes_shape (v : JVal) : normalize_condicoes v = conditions_shape_spec v := by
  cases v with
  | jnull => rfl
  | jbool b => cases b <;> rfl
  | jint n =>
    by_cases h : n = 0 <;> simp [normalize_condicoes, conditions_shape_spec, pyOr, truthy, h]
  | jfloat x =>
    cases x with
    | finite q =>
      by_cases h : q = 0 <;> simp [normalize_condicoes, conditions_shape_spec, pyOr, truthy, h]
    | inf => rfl
    | ninf => rfl
    | nan => rfl
  | jstr s => by_cases h : s = "" <;> simp [normalize_condicoes, conditions_shape_spec, pyOr, truthy, h]
  | jarr xs => cases xs <;> rfl
  | jobj fs => cases fs <;> rfl

/-- The condition-rendering comprehension of lines 171-177 ignores exactly the
non-dict elements, so filtering them away first changes nothing. -/
theorem render_skip (cs : List JVal) :
    (cs.filter isJObj).filterMap render_condition = cs.filterMap render_condition := by
  induction cs with
  | nil => rfl
  | cons c t ih =>
    cases c <;> simp [List.filter_cons, List.filterMap_cons, render_condition, isJObj, ih]

/-- The `tipo` part of the f-string at line 173, on a string-or-absent `tipo`:
a missing or empty kind renders as `"outro"`, any other string as itself. -/
theorem tipo_cell (fields : List (String × JVal))
    (h : isStrOpt (lookupField fields "tipo") = true) :
    pyStr (pyOr (dictGet fields "tipo") (.jstr "outro"))
      = (match lookupField fields "tipo" with
         | some (.jstr t) => if t = "" then "outro" else t
         | _ => "outro") := by
  unfold dictGet
  cases hl : lookupField fields "tipo" with
  | none => rfl
  | some v =>
    rw [hl] at h
    cases v with
    | jstr t => by_cases he : t = "" <;> simp [pyOr, truthy, pyStr, he]
    | jnull => simp [isStrOpt] at h
    | jbool b => simp [isStrOpt] at h
    | jint n => simp [isStrOpt] at h
    | jfloat x => simp [isStrOpt] at h
    | jarr l => simp [isStrOpt] at h
    | jobj f => simp [isStrOpt] at h

/-- The `valor` part of the f-string at line 173, on a string-or-absent
`valor`: a missing value renders empty, a string as itself. -/
theorem valor_cell (fields : List (String × JVal))
    (h : isStrOpt (lookupField fields "valor") = true) :
    pyStr (pyOr (dictGet fields "valor") (.jstr ""))
      = (match lookupField fields "valor" with
         | some (.jstr s) => s
         | _ => "") := by
  unfold dictGet
  cases hl : lookupField fields "valor" with
  | none => rfl
  | some v =>
    rw [hl] at h
    cases v with
    | jstr t => by_cases he : t = "" <;> simp [pyOr, truthy, pyStr, he]
    | jnull => simp [isStrOpt] at h
    | jbool b => simp [isStrOpt] at h
    | jint n => simp [isStrOpt] at h
    | jfloat x => simp [isStrOpt] at h
    | jarr l => simp [isStrOpt] at h
    | jobj f => simp [isStrOpt] at h

/-- On a §3-shaped condition, the source's rendering is exactly the claim's
cell text. -/
theorem render_condition_wellTyped (c : JVal) (h : wellTypedCondition c = true) :
    render_condition c = some (condition_cell_spec c) := by
  cases c with
  | jobj fields =>
    unfold wellTypedCondition at h
    rw [Bool.and_eq_true] at h
    simp only [render_condition, condition_cell_spec]
    rw [tipo_cell fields h.1, valor_cell fields h.2]
  | jnull => simp [wellTypedCondition] at h
  | jbool b => simp [wellTypedCondition] at h
  | jint n => simp [wellTypedCondition] at h
  | jfloat x => simp [wellTypedCondition] at h
  | jstr s => simp [wellTypedCondition] at h
  | jarr l => simp [wellTypedCondition] at h

/-- Over a whole §3-shaped condition list, the rendering comprehension keeps
every element and produces the claim's cell texts in order. -/
theorem render_map_wellTyped (cs : List JVal) (h : cs.all wellTypedCondition = true) :
    cs.filterMap render_condition = cs.map condition_cell_spec := by
  induction cs with
  | nil => rfl
  | cons c t ih =>
    rw [List.all_cons, Bool.and_eq_true] at h
    simp [List.filterMap_cons, render_condition_wellTyped c h.1, ih h.2]

/-- When the price field is non-`None` and its direct `float` coercion raises,
the normalizer's price is exactly the specification's fallback chain. -/
theorem normalize_price_fallback (v : JVal) (hnn : v ≠ .jnull) (err : PyErr)
    (hpf : pyFloat v = .error err) (texto : JVal) :
    normalize_price v texto = price_fallback_spec v texto := by
  unfold normalize_price price_fallback_spec fallback_price_str
  rw [if_neg hnn, hpf]

/-- A present normalized price is always the successful result of one of the
two `float` coercions. -/
theorem normalize_price_some (v texto : JVal) (x : PyFloat)
    (h : normalize_price v texto = some x) :
    pyFloat v = .ok x ∨ pyFloatOfString (fallback_price_str v texto) = .ok x := by
  unfold normalize_price at h
  by_cases hnn : v = .jnull
  · simp [hnn] at h
  · rw [if_neg hnn] at h
    cases h1 : pyFloat v with
    | ok y =>
      rw [h1] at h
      simp at h
      subst h
      exact .inl rfl
    | error e =>
      rw [h1] at h
      cases h2 : pyFloatOfString (fallback_price_str v texto) with
      | ok y =>
        rw [h2] at h
        simp at h
        subst h
        exact .inr rfl
      | error e2 => rw [h2] at h; simp at h

/-- `dropWhile` distributes over an append whose right part starts with a
character the predicate rejects. -/
theorem dropWhile_append_of_head (f : Char → Bool) (l1 l2 : List Char) (c : Char)
    (hc : l2.head? = some c) (hf : f c = false) :
    (l1 ++ l2).dropWhile f = l1.dropWhile f ++ l2 := by
  induction l1 with
  | nil =>
    cases l2 with
    | nil => simp at hc
    | cons a t =>
      obtain rfl : a = c := by injection hc
      simp [List.dropWhile_cons, hf]
  | cons a t ih =>
    by_cases h : f a <;> simp [List.dropWhile_cons, h, ih]

/-- The head of an append is the head of its nonempty left part. -/
theorem head?_append_left (l1 l2 : List Char) (c : Char) (h : l1.head? = some c) :
    (l1 ++ l2).head? = some c := by
  cases l1 with
  | nil => simp at h
  | cons a t => simpa using h

/-- `str.find` on an append locates the head of the right part when the left
part avoids the character. -/
theorem findCharIdx_append (c : Char) (l1 l2 : List Char) (h1 : c ∉ l1)
    (h2 : l2.head? = some c) :
    findCharIdx c (l1 ++ l2) = some l1.length := by
  induction l1 with
  | nil =>
    cases l2 with
    | nil => simp at h2
    | cons a t =>
      obtain rfl : a = c := by injection h2
      simp [findCharIdx]
  | cons a t ih =>
    have ha : ¬(a = c) := fun hh => h1 (hh ▸ List.mem_cons_self a t)
    have h1t : c ∉ t := fun hm => h1 (List.mem_cons_of_mem _ hm)
    simp [findCharIdx, ha, ih h1t]

/-- `str.rfind` in terms of a forward search on the reversal. -/
theorem rfindCharIdx_eq (c : Char) (cs : List Char) (i : Nat)
    (h : findCharIdx c cs.reverse = some i) :
    rfindCharIdx c cs = some (cs.length - 1 - i) := by
  unfold rfindCharIdx
  rw [h]

/-- When strict parsing fails, both braces are found, and the slice between
them parses, the payload is that slice's value. -/
theorem parse_payload_of_recovery (content : List Char) (a b : Nat) (w : JVal)
    (h0 : json_loads content = none)
    (h1 : findCharIdx '{' (pyStripChars content) = some a)
    (h2 : rfindCharIdx '}' (pyStripChars content) = some b)
    (h3 : json_loads (pySlice (pyStripChars content) a (b + 1)) = some w) :
    parse_payload content = .ok w := by
  unfold parse_payload
  rw [h0, h1, h2]
  show (match json_loads (pySlice (pyStripChars content) a (b + 1)) with
        | some u => (Except.ok u : Except PyErr JVal)
        | none => Except.error PyErr.jsonDecodeError) = Except.ok w
  rw [h3]

/-- `str.strip` of a text whose middle part starts with `{` and ends with `}`
strips only within the left and right junk. -/
theorem pyStrip_decomp (p s bare : List Char)
    (hh : bare.head? = some '{') (hl : bare.getLast? = some '}') :
    pyStripChars (p ++ bare ++ s)
      = p.dropWhile isPyWs ++ bare ++ (s.reverse.dropWhile isPyWs).reverse := by
  unfold pyStripChars
  have e1 : (p ++ bare ++ s).dropWhile isPyWs = p.dropWhile isPyWs ++ (bare ++ s) := by
    rw [List.append_assoc]
    exact dropWhile_append_of_head _ _ _ '{' (head?_append_left _ _ _ hh) (by decide)
  rw [e1]
  have e2 : (p.dropWhile isPyWs ++ (bare ++ s)).reverse
      = s.reverse ++ (bare.reverse ++ (p.dropWhile isPyWs).reverse) := by
    simp [List.reverse_append, List.append_assoc]
  rw [e2]
  have hrl : bare.reverse.head? = some '}' := by rw [List.head?_reverse]; exact hl
  have e3 : (s.reverse ++ (bare.reverse ++ (p.dropWhile isPyWs).reverse)).dropWhile isPyWs
      = s.reverse.dropWhile isPyWs ++ (bare.reverse ++ (p.dropWhile isPyWs).reverse) :=
    dropWhile_append_of_head _ _ _ '}' (head?_append_left _ _ _ hrl) (by decide)
  rw [e3]
  simp [List.reverse_append, List.reverse_reverse, List.append_assoc]

/-- Claim C1 (amended): when strict JSON parsing of the model reply fails and
the stripped text lacks a `{` or a `}`, the response parser returns zero
products; and when the parsed payload is an object with no `products` key, it
also returns zero products.  (The original claim's further promise — that a
failing recovery parse also degrades to zero products — is false: see
`response_parser_raises_on_failed_recovery`.) -/
theorem response_parser_degradation :
    (∀ content : List Char, json_loads content = none →
      findCharIdx '{' (pyStripChars content) = none ∨
        rfindCharIdx '}' (pyStripChars content) = none →
      extract_products_from_image content = .ok [])
    ∧ ∀ (content : List Char) (fields : List (String × JVal)),
      json_loads content = some (.jobj fields) →
      lookupField fields "products" = none →
      extract_products_from_image content = .ok [] := by
  constructor
  · intro content h1 h2
    rcases h2 with h | h
    · simp [extract_products_from_image, parse_payload, h1, h, get_products_value, lookupField,
        pyOr, truthy, iter_elems, List.mapM, List.mapM.loop, except_bind_ok, except_pure]
    · cases hf : findCharIdx '{' (pyStripChars content) <;>
        simp [extract_products_from_image, parse_payload, h1, hf, h, get_products_value,
          lookupField, pyOr, truthy, iter_elems, List.mapM, List.mapM.loop, except_bind_ok,
          except_pure]
  · intro content fields h1 h2
    simp [extract_products_from_image, parse_payload, h1, get_products_value, h2, pyOr, truthy,
      iter_elems, List.mapM, List.mapM.loop, except_bind_ok, except_pure]

/-- Witness for C1: the reply `"no json here"` (parse failure, no braces) and
the reply `{"ok": 1}` (object without a `products` key) both yield zero
products. -/
theorem response_parser_degradation_witness :
    (json_loads "no json here".data = none
      ∧ findCharIdx '{' (pyStripChars "no json here".data) = none
      ∧ extract_products_from_image "no json here".data = .ok [])
    ∧ (json_loads "\x7b\"ok\": 1\x7d".data = some (.jobj [("ok", .jint 1)])
      ∧ lookupField [("ok", JVal.jint 1)] "products" = none
      ∧ extract_products_from_image "\x7b\"ok\": 1\x7d".data = .ok []) :=
  ⟨⟨by decide, by decide, response_parser_degradation.1 _ (by decide) (.inl (by decide))⟩,
   ⟨by decide, by decide,
    response_parser_degradation.2 _ [("ok", JVal.jint 1)] (by decide) (by decide)⟩⟩

/-- Counterexample to C1 as stated: on the reply `{bad}` the strict parse
fails, recovery retries on the whole brace-delimited text, that parse fails
too, and — the salvage `json.loads` at line 122 being outside any `try` —
the parser raises a JSON decode error instead of returning zero products. -/
theorem response_parser_raises_on_failed_recovery :
    extract_products_from_image "\x7bbad\x7d".data = .error .jsonDecodeError := by decide

/-- Claim C2: a reply consisting of the JSON object text `bare` surrounded by
brace-free junk that makes the whole reply non-JSON is recovered to exactly
the payload of the bare object, so the extracted products agree. -/
theorem recovery_parse_equals_bare_parse (p s bare : List Char) (v : JVal)
    (hp1 : '{' ∉ p) (_hp2 : '}' ∉ p) (_hs1 : '{' ∉ s) (hs2 : '}' ∉ s)
    (hh : bare.head? = some '{') (hl : bare.getLast? = some '}')
    (hb : json_loads bare = some v)
    (hc : json_loads (p ++ bare ++ s) = none) :
    extract_products_from_image (p ++ bare ++ s) = extract_products_from_image bare := by
  have hbne : bare ≠ [] := by
    intro h
    rw [h] at hh
    simp at hh
  have hblen : 0 < bare.length := List.length_pos.mpr hbne
  have hstrip := pyStrip_decomp p s bare hh hl
  have hP1 : '{' ∉ p.dropWhile isPyWs := fun hm => hp1 ((List.dropWhile_sublist _).subset hm)
  have hX2 : '}' ∉ s.reverse.dropWhile isPyWs := fun hm =>
    hs2 ((List.mem_reverse).mp ((List.dropWhile_sublist _).subset hm))
  have hfind : findCharIdx '{'
      (p.dropWhile isPyWs ++ bare ++ (s.reverse.dropWhile isPyWs).reverse)
      = some (p.dropWhile isPyWs).length := by
    rw [List.append_assoc]
    exact findCharIdx_append _ _ _ hP1 (head?_append_left _ _ _ hh)
  have hfr : findCharIdx '}'
      ((p.dropWhile isPyWs ++ bare ++ (s.reverse.dropWhile isPyWs).reverse).reverse)
      = some (s.reverse.dropWhile isPyWs).length := by
    have er : (p.dropWhile isPyWs ++ bare ++ (s.reverse.dropWhile isPyWs).reverse).reverse
        = s.reverse.dropWhile isPyWs
          ++ (bare.reverse ++ (p.dropWhile isPyWs).reverse) := by
      simp [List.reverse_append, List.append_assoc]
    rw [er]
    exact findCharIdx_append _ _ _ hX2
      (head?_append_left _ _ _ (by rw [List.head?_reverse]; exact hl))
  have hrfind : rfindCharIdx '}'
      (p.dropWhile isPyWs ++ bare ++ (s.reverse.dropWhile isPyWs).reverse)
      = some ((p.dropWhile isPyWs).length + bare.length - 1) := by
    rw [rfindCharIdx_eq _ _ _ hfr]
    congr 1
    simp only [List.length_append, List.length_reverse]
    omega
  have hslice : pySlice
      (p.dropWhile isPyWs ++ bare ++ (s.reverse.dropWhile isPyWs).reverse)
      (p.dropWhile isPyWs).length ((p.dropWhile isPyWs).length + bare.length - 1 + 1) = bare := by
    unfold pySlice
    have hbt : (p.dropWhile isPyWs).length + bare.length - 1 + 1 - (p.dropWhile isPyWs).length
        = bare.length := by omega
    rw [hbt, List.append_assoc, List.drop_left, List.take_left]
  have hpp : parse_payload (p ++ bare ++ s) = .ok v := by
    apply parse_payload_of_recovery _ _ _ _ hc
    · rw [hstrip]
      exact hfind
    · rw [hstrip]
      exact hrfind
    · rw [hstrip, hslice]
      exact hb
  have hpb : parse_payload bare = .ok v := by
    unfold parse_payload
    rw [hb]
  unfold extract_products_from_image
  rw [hpp, hpb]

/-- Witness for C2: the object `{"products": [{"marca": "Acme"}]}` wrapped in
the junk `"Model says: "` and `" ok?"` extracts the same product list as the
bare object. -/
theorem recovery_parse_equals_bare_parse_witness :
    ('{' ∉ "Model says: ".data ∧ '}' ∉ "Model says: ".data
      ∧ '{' ∉ " ok?".data ∧ '}' ∉ " ok?".data)
    ∧ ("\x7b\"products\": [\x7b\"marca\": \"Acme\"\x7d]\x7d".data.head? = some '{'
      ∧ "\x7b\"products\": [\x7b\"marca\": \"Acme\"\x7d]\x7d".data.getLast? = some '}')
    ∧ json_loads "\x7b\"products\": [\x7b\"marca\": \"Acme\"\x7d]\x7d".data
        = some (JVal.jobj [("products", JVal.jarr [JVal.jobj [("marca", JVal.jstr "Acme")]])])
    ∧ json_loads ("Model says: ".data
        ++ "\x7b\"products\": [\x7b\"marca\": \"Acme\"\x7d]\x7d".data ++ " ok?".data) = none
    ∧ extract_products_from_image ("Model says: ".data
        ++ "\x7b\"products\": [\x7b\"marca\": \"Acme\"\x7d]\x7d".data ++ " ok?".data)
      = extract_products_from_image "\x7b\"products\": [\x7b\"marca\": \"Acme\"\x7d]\x7d".data :=
  ⟨⟨by decide, by decide, by decide, by decide⟩, ⟨by decide, by decide⟩, by decide, by decide,
   recovery_parse_equals_bare_parse "Model says: ".data " ok?".data
     "\x7b\"products\": [\x7b\"marca\": \"Acme\"\x7d]\x7d".data
     (JVal.jobj [("products", JVal.jarr [JVal.jobj [("marca", JVal.jstr "Acme")]])])
     (by decide) (by decide) (by decide) (by decide)
     (by decide) (by decide) (by decide) (by decide)⟩

/-- Claim C3: on `{"preco_brl": "R$ 29,90"}` the normalizer yields price
`299/10 = 29.90`; on `{"preco_brl": "R$ 1.234,56"}` it yields
`30864/25 = 1234.56`; and the JSON number `19.9 = 199/10` passes through
unchanged. -/
theorem price_coercion_concrete_cases :
    normalize_product (.jobj [("preco_brl", .jstr "R$ 29,90")])
      = .ok ⟨.jstr "", .jstr "", .jstr "", some (.finite (299 / 10)), .jstr "", []⟩
  ∧ normalize_product (.jobj [("preco_brl", .jstr "R$ 1.234,56")])
      = .ok ⟨.jstr "", .jstr "", .jstr "", some (.finite (30864 / 25)), .jstr "", []⟩
  ∧ normalize_product (.jobj [("preco_brl", .jfloat (.finite (199 / 10)))])
      = .ok ⟨.jstr "", .jstr "", .jstr "", some (.finite (199 / 10)), .jstr "", []⟩ :=
  ⟨by decide, by decide, by decide⟩

/-- Claim C4: whenever the raw price field is present (non-`None`) and its
direct `float` coercion raises, the normalizer still produces the record, its
price being exactly the specification's locale-cleanup fallback applied to the
price field or the textual-price field — which is `none` (absent, not zero)
when that coercion fails too. -/
theorem price_fallback_chain (fields : List (String × JVal)) (err : PyErr)
    (hnn : dictGet fields "preco_brl" ≠ .jnull)
    (hpf : pyFloat (dictGet fields "preco_brl") = .error err) :
    Except.map Product.preco_brl (normalize_product (.jobj fields))
      = .ok (price_fallback_spec (dictGet fields "preco_brl")
          (pyOr (dictGet fields "preco_brl_texto")
            (pyOr (dictGet fields "preco_texto") (.jstr "")))) := by
  simp [normalize_product, Except.map, normalize_price_fallback _ hnn err hpf]

/-- Witness for C4: the formatted string `"R$ 9,99"` fails direct coercion and
is recovered through the fallback chain. -/
theorem price_fallback_chain_witness :
    dictGet [("preco_brl", JVal.jstr "R$ 9,99")] "preco_brl" ≠ .jnull
    ∧ pyFloat (dictGet [("preco_brl", JVal.jstr "R$ 9,99")] "preco_brl") = .error .valueError
    ∧ Except.map Product.preco_brl (normalize_product (.jobj [("preco_brl", .jstr "R$ 9,99")]))
        = .ok (price_fallback_spec (dictGet [("preco_brl", JVal.jstr "R$ 9,99")] "preco_brl")
            (pyOr (dictGet [("preco_brl", JVal.jstr "R$ 9,99")] "preco_brl_texto")
              (pyOr (dictGet [("preco_brl", JVal.jstr "R$ 9,99")] "preco_texto") (.jstr "")))) :=
  ⟨by decide, by decide, price_fallback_chain _ .valueError (by decide) (by decide)⟩

/-- Claim C5 (amended): the normalized `condicoes` of every raw record follows
`conditions_shape_spec`: a non-empty mapping is wrapped into a singleton
sequence, a sequence is kept as-is, and anything else — the empty mapping
included, which the claim as stated got wrong — becomes the empty sequence. -/
theorem conditions_shaping (fields : List (String × JVal)) :
    Except.map Product.condicoes (normalize_product (.jobj fields))
      = .ok (conditions_shape_spec (dictGet fields "condicoes")) := by
  simp [normalize_product, Except.map, normalize_condicoes_shape]

/-- Counterexample to C5 as stated: the empty mapping is a mapping, yet it is
not wrapped into a one-element sequence — it normalizes to the empty
sequence. -/
theorem conditions_empty_mapping_not_wrapped :
    Except.map Product.condicoes (normalize_product (.jobj [("condicoes", .jobj [])])) = .ok []
    ∧ ([] : List JVal) ≠ [.jobj []] := ⟨by decide, by decide⟩

/-- Claim C6 (amended): the field normalizer keeps a raw `condicoes` sequence
as-is, non-mapping elements included; the silent dropping happens in the
result aggregator, whose rendering ignores exactly the non-mapping elements
without failing. -/
theorem conditions_nonmapping_dropped_at_render :
    (∀ xs : List JVal,
      Except.map Product.condicoes (normalize_product (.jobj [("condicoes", .jarr xs)])) = .ok xs)
    ∧ ∀ cs : List JVal, render_condicoes cs = render_condicoes (cs.filter isJObj) := by
  constructor
  · intro xs
    cases xs <;>
      simp [normalize_product, Except.map, normalize_condicoes, pyOr, truthy, dictGet, lookupField]
  · intro cs
    unfold render_condicoes
    rw [render_skip]

/-- Counterexample to C6 as stated: the record the field normalizer produces
can still contain a non-mapping condition element; nothing is dropped at that
stage. -/
theorem normalizer_keeps_nonmapping_condition :
    Except.map Product.condicoes (normalize_product (.jobj [("condicoes",
        .jarr [.jobj [("tipo", .jstr "desconto")], .jstr "foo"])]))
      = .ok [.jobj [("tipo", .jstr "desconto")], .jstr "foo"]
    ∧ isJObj (.jstr "foo") = false := ⟨by decide, rfl⟩

/-- Claim C7 (amended): a present `preco_brl` is always the exact successful
result of one of the two `float` coercions — never a sentinel or a
non-numeric placeholder.  It need not be finite: see
`price_value_can_be_infinite`. -/
theorem price_value_from_float_coercion (fields : List (String × JVal)) (prod : Product)
    (x : PyFloat)
    (h1 : normalize_product (.jobj fields) = .ok prod)
    (h2 : prod.preco_brl = some x) :
    pyFloat (dictGet fields "preco_brl") = .ok x
    ∨ pyFloatOfString (fallback_price_str (dictGet fields "preco_brl")
        (pyOr (dictGet fields "preco_brl_texto")
          (pyOr (dictGet fields "preco_texto") (.jstr "")))) = .ok x := by
  simp only [normalize_product] at h1
  cases h1
  exact normalize_price_some _ _ _ h2

/-- Witness for C7: the in-range number `19.9` is stored as the direct
coercion's result. -/
theorem price_value_from_float_coercion_witness :
    normalize_product (.jobj [("preco_brl", .jfloat (.finite (199 / 10)))])
        = .ok exampleProduct199
    ∧ exampleProduct199.preco_brl = some (.finite (199 / 10))
    ∧ (pyFloat (dictGet [("preco_brl", JVal.jfloat (.finite (199 / 10)))] "preco_brl")
          = .ok (.finite (199 / 10))
       ∨ pyFloatOfString (fallback_price_str
            (dictGet [("preco_brl", JVal.jfloat (.finite (199 / 10)))] "preco_brl")
            (pyOr (dictGet [("preco_brl", JVal.jfloat (.finite (199 / 10)))] "preco_brl_texto")
              (pyOr (dictGet [("preco_brl", JVal.jfloat (.finite (199 / 10)))] "preco_texto")
                (.jstr "")))) = .ok (.finite (199 / 10))) :=
  ⟨by decide, by decide,
   price_value_from_float_coercion _ exampleProduct199 _ (by decide) (by decide)⟩

/-- Counterexample to C7 as stated: a raw price field of `"inf"` coerces via
`float` to a present but infinite — hence non-finite — price value. -/
theorem price_value_can_be_infinite :
    Except.map Product.preco_brl (normalize_product (.jobj [("preco_brl", .jstr "inf")]))
      = .ok (some .inf)
    ∧ isFiniteFloat .inf = false := ⟨by decide, rfl⟩

/-- Claim C8 (amended): for every `ExtractedProduct` whose conditions are
shaped as §3 types them (mappings with string-or-absent `tipo`/`valor`), the
aggregator renders the conditions column by joining each pair as
`"<tipo>: <valor>"` with `"; "` separators, substituting `"outro"` — the
source's literal, not the spec's English `"other"` — when `tipo` is missing or
empty; in particular the claim's example row renders as
`"discount: 10%; outro: until 5/1"`, and a condition with no `tipo` key at all
renders as `"outro: <valor>"`. -/
theorem render_conditions_joins_with_outro :
    (∀ cs : List JVal, cs.all wellTypedCondition = true →
      render_condicoes cs = String.intercalate "; " (cs.map condition_cell_spec))
    ∧ build_dataframe [("banner.png", ⟨.jstr "", .jstr "", .jstr "", none, .jstr "",
        [.jobj [("tipo", .jstr "discount"), ("valor", .jstr "10%")],
         .jobj [("tipo", .jstr ""), ("valor", .jstr "until 5/1")]]⟩)]
      = [⟨"banner.png", .jstr "", .jstr "", .jstr "", none, .jstr "",
          "discount: 10%; outro: until 5/1"⟩]
    ∧ render_condicoes [.jobj [("valor", .jstr "until 5/1")]] = "outro: until 5/1" := by
  refine ⟨fun cs h => ?_, by decide, by decide⟩
  unfold render_condicoes
  rw [render_map_wellTyped cs h]

/-- Witness for C8: a three-condition list exercising a normal kind, an empty
kind, and a missing kind. -/
theorem render_conditions_joins_with_outro_witness :
    ([JVal.jobj [("tipo", JVal.jstr "discount"), ("valor", JVal.jstr "10%")],
      JVal.jobj [("tipo", JVal.jstr ""), ("valor", JVal.jstr "until 5/1")],
      JVal.jobj [("valor", JVal.jstr "cash only")]].all wellTypedCondition = true)
    ∧ render_condicoes
        [JVal.jobj [("tipo", JVal.jstr "discount"), ("valor", JVal.jstr "10%")],
         JVal.jobj [("tipo", JVal.jstr ""), ("valor", JVal.jstr "until 5/1")],
         JVal.jobj [("valor", JVal.jstr "cash only")]]
      = String.intercalate "; "
          ([JVal.jobj [("tipo", JVal.jstr "discount"), ("valor", JVal.jstr "10%")],
            JVal.jobj [("tipo", JVal.jstr ""), ("valor", JVal.jstr "until 5/1")],
            JVal.jobj [("valor", JVal.jstr "cash only")]].map condition_cell_spec) :=
  ⟨by decide, render_conditions_joins_with_outro.1 _ (by decide)⟩

/-- Counterexample to C8 as stated: the rendered cell is not the claimed
`"discount: 10%; other: until 5/1"` (the default marker is `"outro"`). -/
theorem render_conditions_not_english_other :
    render_condicoes [.jobj [("tipo", .jstr "discount"), ("valor", .jstr "10%")],
        .jobj [("tipo", .jstr ""), ("valor", .jstr "until 5/1")]]
      ≠ "discount: 10%; other: until 5/1" := by decide

/-- Claim C9: in a three-image batch whose second image fails, the loop still
collects images one and three in order, and the total record count is the sum
of the successful images' product counts. -/
theorem batch_continues_after_failure (n1 n2 n3 : String) (ps1 ps3 : List Product) (e : PyErr) :
    main_batch_loop [(n1, .ok ps1), (n2, .error e), (n3, .ok ps3)]
        = ps1.map (fun p => (n1, p)) ++ ps3.map (fun p => (n3, p))
    ∧ (main_batch_loop [(n1, .ok ps1), (n2, .error e), (n3, .ok ps3)]).length
        = ps1.length + ps3.length := by
  constructor <;> simp [main_batch_loop]

/-- Claim C10: when the parsed payload binds `products` to any falsy value —
`null`, the empty object, and the like — the `or []` at line 126 replaces it
and the parser returns the empty product list. -/
theorem falsy_products_yield_empty (content : List Char) (fields : List (String × JVal))
    (v : JVal)
    (h1 : json_loads content = some (.jobj fields))
    (h2 : lookupField fields "products" = some v)
    (h3 : truthy v = false) :
    extract_products_from_image content = .ok [] := by
  simp [extract_products_from_image, parse_payload, h1, get_products_value, h2, pyOr, h3,
    iter_elems, List.mapM, List.mapM.loop, except_bind_ok, except_pure]

/-- Witness for C10: the reply `{"products": null}` yields the empty list. -/
theorem falsy_products_yield_empty_witness :
    json_loads "\x7b\"products\": null\x7d".data = some (.jobj [("products", .jnull)])
    ∧ lookupField [("products", JVal.jnull)] "products" = some .jnull
    ∧ truthy .jnull = false
    ∧ extract_products_from_image "\x7b\"products\": null\x7d".data = .ok [] :=
  ⟨by decide, by decide, rfl,
    falsy_products_yield_empty _ [("products", JVal.jnull)] .jnull (by decide) (by decide) rfl⟩
